import Mathlib

/-!
Verification development for the `pygts` package (BGCI Global Tree Search client).

The definitions below are a shallow embedding of the Python sources:

* `src/pygts/data_fetcher.py` — `species_exists`, `request_data`,
  `fetch_species_data_parallel`;
* `src/pygts/visualizer.py` — `extract_locations`;
* `src/pygts/utils.py` — `load_species_data` (its per-row name splitting).

JSON values are modelled by the inductive `Json`; Python truthiness by
`Json.truthy`.  The HTTP transport of one request is a parameter of type
`HttpOutcome` (network failure, or a status code together with the outcome
of decoding the body).  Python's blanket `except` clauses make the embedded
functions total; diagnostic `print` lines are returned as an explicit log.
-/

/-- JSON values, as produced by `response.json()` in Python. -/
inductive Json where
  | null : Json
  | bool : Bool → Json
  | num : Int → Json
  | str : String → Json
  | arr : List Json → Json
  | obj : List (String × Json) → Json

/-- Python truthiness (`bool(v)`) of a JSON value: `None`, `False`, `0`,
empty strings and empty containers are falsy, everything else truthy. -/
def Json.truthy : Json → Bool
  | .null => false
  | .bool b => b
  | .num n => n != 0
  | .str s => s != ""
  | .arr l => !l.isEmpty
  | .obj m => !m.isEmpty

/-- Python `isinstance(v, list)`. -/
def Json.isList : Json → Bool
  | .arr _ => true
  | _ => false

/-- Python `len(v)` for list values (only ever applied behind an
`isinstance(v, list)` guard in the source). -/
def Json.listLen : Json → Nat
  | .arr l => l.length
  | _ => 0

/-- Python `d.get(key, dflt)` on a JSON object's field list. -/
def dictGet (fields : List (String × Json)) (key : String) (dflt : Json) : Json :=
  match fields.lookup key with
  | some v => v
  | none => dflt

/-- The field `body["results"]` when present (`None` when the body is not a
mapping or lacks the key).  Used to state properties of the parsers. -/
def resultsField (body : Json) : Option Json :=
  match body with
  | .obj fields => fields.lookup "results"
  | _ => none

/-- Body-processing part of `request_data` (data_fetcher.py lines 104–116):
`results = response_dict.get("results", [])`; return `None` if `results` is
falsy or not a list; take `results[0]`; return `None` if it is not a dict;
`countries_dicts = first_result.get("TSGeolinks", [])`; return
`countries_dicts if countries_dicts else None`.  A non-mapping body makes
`.get` raise `AttributeError`, which the enclosing `except Exception`
converts to `None`. -/
def request_data_body (body : Json) : Option Json :=
  match body with
  | .obj fields =>
      let results := dictGet fields "results" (.arr [])
      if !results.truthy || !results.isList then none
      else
        match results with
        | .arr (first :: _) =>
            match first with
            | .obj f =>
                let countries_dicts := dictGet f "TSGeolinks" (.arr [])
                if countries_dicts.truthy then some countries_dicts else none
            | _ => none
        | _ => none
  | _ => none

/-- Body-processing part of `species_exists` (data_fetcher.py lines 58–61):
`results = response_dict.get("results", [])`;
`return bool(results and isinstance(results, list) and len(results) > 0)`.
A non-mapping body raises inside the `try`, and the `except Exception`
returns `False`. -/
def species_exists_body (body : Json) : Bool :=
  match body with
  | .obj fields =>
      let results := dictGet fields "results" (.arr [])
      results.truthy && results.isList && decide (0 < results.listLen)
  | _ => false

/-- Outcome of the single HTTP GET issued by `request_data` /
`species_exists`: either a `requests` network failure (timeout, connection
failure, DNS failure — all `RequestException`s), or a response with a
status code and the outcome of `response.json()` (`Except.error` models a
`ValueError` from a malformed body).  `raise_for_status` raises exactly for
4xx/5xx statuses, modelled as `400 ≤ status`. -/
inductive HttpOutcome where
  | netError (msg : String)
  | response (status : Nat) (body : Except String Json)

/-- Transport outcomes on which the Python code takes an exception path:
a network failure, a non-success HTTP status, or a body that fails to
decode. -/
def HttpOutcome.isFault : HttpOutcome → Bool
  | .netError _ => true
  | .response status body =>
      decide (400 ≤ status) ||
        (match body with
         | .error _ => true
         | .ok _ => false)

/-- `request_data` (data_fetcher.py lines 66–129) for a given transport
outcome: returns the parsed location list (`none` = Python `None`) together
with the list of diagnostic lines printed.  Every exception path is caught
by one of the three `except` clauses and yields `None` plus one `print`
identifying the query; the function is total (never raises). -/
def request_data (genus species : String) (o : HttpOutcome) :
    Option Json × List String :=
  match o with
  | .netError msg =>
      (none, ["Request error for " ++ genus ++ " " ++ species ++ ": " ++ msg])
  | .response status body =>
      if 400 ≤ status then
        (none, ["Request error for " ++ genus ++ " " ++ species ++ ": HTTP " ++
          toString status])
      else
        match body with
        | .error msg =>
            (none, ["Data parsing error for " ++ genus ++ " " ++ species ++ ": " ++ msg])
        | .ok j =>
            match j with
            | .obj _ => (request_data_body j, [])
            | _ =>
                (none, ["Unexpected error for " ++ genus ++ " " ++ species ++
                  ": AttributeError"])

/-- `species_exists` (data_fetcher.py lines 25–63) for a given transport
outcome: one `try` block whose `except Exception` returns `False`, so the
function is total and every exception path yields `false`. -/
def species_exists (o : HttpOutcome) : Bool :=
  match o with
  | .netError _ => false
  | .response status body =>
      if 400 ≤ status then false
      else
        match body with
        | .error _ => false
        | .ok j => species_exists_body j

/-- Outcome of one submitted lookup task in `fetch_species_data_parallel`:
`future.result()` either returns the value `request_data` produced for that
row (`ok`, with `none` = Python `None`), or re-raises an uncaught exception
from the task (`exn`). -/
inductive TaskOutcome where
  | ok (v : Option Json)
  | exn (msg : String)

/-- Value stored in one slot of the `results` list of
`fetch_species_data_parallel`: `None`, a location list, or the
`{"error": str(e)}` dictionary. -/
inductive SlotResult where
  | notFound
  | success (v : Json)
  | error (msg : String)

/-- What the completion-processing loop writes into `results[idx]` for one
finished task (data_fetcher.py lines 188–198). -/
def slotOf : TaskOutcome → SlotResult
  | .ok none => .notFound
  | .ok (some v) => .success v
  | .exn msg => .error msg

/-- One iteration of the `as_completed` loop: the future for row `idx`
completes and its outcome is written to `results[idx]`.  (Out-of-range
indices never occur for a genuine completion order; `List.set` leaves the
list unchanged there.) -/
def applyCompletion (outcomes : List TaskOutcome) (results : List SlotResult)
    (idx : Nat) : List SlotResult :=
  match outcomes[idx]? with
  | some oc => results.set idx (slotOf oc)
  | none => results

/-- `fetch_species_data_parallel` (data_fetcher.py lines 132–201).  Row `i`
of the input DataFrame is submitted as one task whose eventual outcome is
`outcomes[i]`; `maxWorkers` bounds the thread pool and does not affect which
slot a completion is written to; `order` is the order in which
`as_completed` yields the futures (a permutation of the row positions).
`results = [None] * len(species_df)` is the initial list, and each
completion writes to the slot of its original index.  The progress bar and
the final success/failure count line are I/O effects not modelled here. -/
def fetch_species_data_parallel (outcomes : List TaskOutcome)
    (maxWorkers : Nat) (order : List Nat) : List SlotResult :=
  let _ := maxWorkers
  order.foldl (applyCompletion outcomes)
    (List.replicate outcomes.length SlotResult.notFound)

/-- One location dictionary consumed by `extract_locations`: the values of
`entry.get("country")` and `entry.get("province")` (`none` = key absent or
`None`; the empty string is a present-but-falsy value). -/
structure LocationRecord where
  country : Option String
  province : Option String

/-- Python truthiness of an optional string field (`if country:`). -/
def strTruthy : Option String → Bool
  | none => false
  | some s => s != ""

/-- `extract_locations` (visualizer.py lines 30–73): iterate the records;
a falsy country skips the record; a truthy country with a truthy province
appends `(country, province)` to the pair list (input order kept, duplicates
kept); a truthy country with a falsy province adds the country to the
`countries_only` set (duplicates collapse).  The Python set is modelled as a
`Finset`; the recursion processes the head first, so the pair list is built
in input order. -/
def extract_locations : List LocationRecord → Finset String × List (String × String)
  | [] => (∅, [])
  | entry :: rest =>
      let r := extract_locations rest
      match entry.country with
      | some c =>
          if c = "" then r
          else
            match entry.province with
            | some p => if p = "" then (insert c r.1, r.2) else (r.1, (c, p) :: r.2)
            | none => (insert c r.1, r.2)
      | none => r

/-- Python `s.split(" ")` on the character list of `s`: cut at every single
space character, keeping empty fields; `"".split(" ") == [""]`. -/
def pySplit : List Char → List (List Char)
  | [] => [[]]
  | c :: cs =>
      if c = ' ' then [] :: pySplit cs
      else
        match pySplit cs with
        | t :: ts => (c :: t) :: ts
        | [] => [[c]]

/-- Modelled from the spec: the whitespace-separated tokens of a string
(what Python `s.split()` with no argument returns) — maximal runs of
non-whitespace characters, with no empty tokens.  This is the spec-side
notion the tabular input is said to be produced with; `load_species_data`
itself is compared against it. -/
def wsSplit : List Char → List (List Char)
  | [] => [[]]
  | c :: cs =>
      if c.isWhitespace then [] :: wsSplit cs
      else
        match wsSplit cs with
        | t :: ts => (c :: t) :: ts
        | [] => [[c]]

/-- Modelled from the spec: whitespace-separated tokens (empty fields
dropped). -/
def wsTokens (s : List Char) : List (List Char) :=
  (wsSplit s).filter (fun t => !t.isEmpty)

/-- Per-row output of `load_species_data` (utils.py lines 40–46): keeps the
original `TaxonName` and the `Genus` / `Species` columns. -/
structure SpeciesRow where
  taxonName : List Char
  genus : Option (List Char)
  species : Option (List Char)

/-- The row transformation of `load_species_data`:
`Genus = str(x).split(" ")[0]`, `Species = str(x).split(" ")[1]`, applied to
the row's `TaxonName` value (`none` models the `IndexError` when the index
does not exist). -/
def load_species_row (t : List Char) : SpeciesRow :=
  ⟨t, (pySplit t)[0]?, (pySplit t)[1]?⟩

/-- `load_species_data` (utils.py lines 11–46) restricted to its per-row
column computation: one `SpeciesRow` per `TaxonName` value read from the
CSV. -/
def load_species_data (names : List (List Char)) : List SpeciesRow :=
  names.map load_species_row

theorem applyCompletion_length (outcomes : List TaskOutcome)
    (results : List SlotResult) (idx : Nat) :
    (applyCompletion outcomes results idx).length = results.length := by
  unfold applyCompletion
  cases outcomes[idx]? <;> simp

theorem foldl_applyCompletion_length (outcomes : List TaskOutcome) :
    ∀ (order : List Nat) (init : List SlotResult),
      (order.foldl (applyCompletion outcomes) init).length = init.length := by
  intro order
  induction order with
  | nil => intro init; rfl
  | cons idx rest ih =>
      intro init
      rw [List.foldl_cons, ih, applyCompletion_length]

theorem foldl_applyCompletion_getElem? (outcomes : List TaskOutcome) :
    ∀ (order : List Nat) (init : List SlotResult),
      init.length = outcomes.length → ∀ j : Nat,
      (order.foldl (applyCompletion outcomes) init)[j]? =
        if j ∈ order ∧ j < outcomes.length then (outcomes[j]?).map slotOf
        else init[j]? := by
  intro order
  induction order with
  | nil =>
      intro init _ j
      simp
  | cons idx rest ih =>
      intro init hlen j
      rw [List.foldl_cons,
        ih (applyCompletion outcomes init idx) (by rw [applyCompletion_length, hlen]) j]
      by_cases hmem : j ∈ rest ∧ j < outcomes.length
      · rw [if_pos hmem, if_pos ⟨List.mem_cons_of_mem _ hmem.1, hmem.2⟩]
      · rw [if_neg hmem]
        by_cases hij : idx = j
        · subst hij
          by_cases hlt : idx < outcomes.length
          · rw [if_pos ⟨List.mem_cons_self _ _, hlt⟩]
            unfold applyCompletion
            rw [List.getElem?_eq_getElem hlt]
            rw [List.getElem?_set_self (by rw [hlen]; exact hlt)]
            rfl
          · rw [if_neg (fun hc => hlt hc.2)]
            unfold applyCompletion
            have hnone : outcomes[idx]? = none := by
              rw [List.getElem?_eq_none]
              omega
            rw [hnone]
        · have hset : (applyCompletion outcomes init idx)[j]? = init[j]? := by
            unfold applyCompletion
            cases outcomes[idx]? with
            | none => rfl
            | some oc => exact List.getElem?_set_ne hij
          rw [hset, if_neg]
          intro hc
          rcases List.mem_cons.mp hc.1 with h1 | h1
          · exact hij h1.symm
          · exact hmem ⟨h1, hc.2⟩

theorem fetch_eq_map (outcomes : List TaskOutcome) (maxWorkers : Nat)
    (order : List Nat) (h : order.Perm (List.range outcomes.length)) :
    fetch_species_data_parallel outcomes maxWorkers order =
      outcomes.map slotOf := by
  apply List.ext_getElem?
  intro j
  unfold fetch_species_data_parallel
  rw [foldl_applyCompletion_getElem? outcomes order _ (by simp) j]
  by_cases hj : j < outcomes.length
  · rw [if_pos ⟨h.mem_iff.mpr (List.mem_range.mpr hj), hj⟩, List.getElem?_map]
  · rw [if_neg (fun hc => hj hc.2), List.getElem?_replicate, if_neg hj,
      List.getElem?_map]
    have hnone : outcomes[j]? = none := by
      rw [List.getElem?_eq_none]
      omega
    rw [hnone]
    rfl

/-- Claim C1: for every ordered batch of species queries and every
`max_workers ≥ 1`, the list returned by `fetch_species_data_parallel` has
exactly the same length as the input batch, whatever the individual task
outcomes (success, no data, or failure) and whatever order completions
arrive in. -/
theorem fetch_species_data_parallel_length (outcomes : List TaskOutcome)
    (maxWorkers : Nat) (order : List Nat) (hmw : 1 ≤ maxWorkers)
    (hperm : order.Perm (List.range outcomes.length)) :
    (fetch_species_data_parallel outcomes maxWorkers order).length =
      outcomes.length := by
  unfold fetch_species_data_parallel
  rw [foldl_applyCompletion_length, List.length_replicate]

theorem fetch_species_data_parallel_length_witness :
    (fetch_species_data_parallel [.ok none, .exn "boom", .ok (some (.arr [.null]))]
      1 [2, 0, 1]).length = 3 :=
  fetch_species_data_parallel_length
    [.ok none, .exn "boom", .ok (some (.arr [.null]))] 1 [2, 0, 1]
    (by decide) (by decide)

/-- Claim C2: whatever order the concurrent lookups complete in (any
permutation of the row positions), slot `i` of the output holds the result
of the lookup submitted for input row `i`; the parallel fetcher equals the
sequential map of the per-row lookup outcomes over the input in input
order, and is therefore invariant under the completion order. -/
theorem fetch_species_data_parallel_order_independent
    (outcomes : List TaskOutcome) (maxWorkers : Nat) (order : List Nat)
    (hperm : order.Perm (List.range outcomes.length)) :
    fetch_species_data_parallel outcomes maxWorkers order =
      outcomes.map slotOf ∧
    ∀ order' : List Nat, order'.Perm (List.range outcomes.length) →
      fetch_species_data_parallel outcomes maxWorkers order =
        fetch_species_data_parallel outcomes maxWorkers order' := by
  refine ⟨fetch_eq_map outcomes maxWorkers order hperm, ?_⟩
  intro order' hperm'
  rw [fetch_eq_map outcomes maxWorkers order hperm,
    fetch_eq_map outcomes maxWorkers order' hperm']

theorem fetch_species_data_parallel_order_independent_witness :
    fetch_species_data_parallel [.ok (some (.arr [.null])), .ok none] 2 [1, 0] =
      List.map slotOf [.ok (some (.arr [.null])), .ok none] :=
  (fetch_species_data_parallel_order_independent
    [.ok (some (.arr [.null])), .ok none] 2 [1, 0] (by decide)).1

/-- Claim C5: if the task for item `k` of the batch raises an uncaught
exception with message `msg`, its slot receives the `{"error": msg}` value,
every other slot still receives its own lookup's outcome, and the call
returns normally (a full-length list is produced). -/
theorem fetch_species_data_parallel_isolates_failure
    (outcomes : List TaskOutcome) (maxWorkers : Nat) (order : List Nat)
    (k : Nat) (msg : String)
    (hperm : order.Perm (List.range outcomes.length))
    (hk : outcomes[k]? = some (.exn msg)) :
    (fetch_species_data_parallel outcomes maxWorkers order)[k]? =
      some (.error msg) ∧
    (∀ j : Nat, j ≠ k →
      (fetch_species_data_parallel outcomes maxWorkers order)[j]? =
        (outcomes[j]?).map slotOf) ∧
    (fetch_species_data_parallel outcomes maxWorkers order).length =
      outcomes.length := by
  rw [fetch_eq_map outcomes maxWorkers order hperm]
  refine ⟨?_, ?_, by rw [List.length_map]⟩
  · rw [List.getElem?_map, hk]
    rfl
  · intro j _
    rw [List.getElem?_map]

theorem fetch_species_data_parallel_isolates_failure_witness :
    (fetch_species_data_parallel
        [.ok (some (.arr [.null])), .exn "boom", .ok none] 2 [2, 0, 1])[1]? =
      some (.error "boom") :=
  (fetch_species_data_parallel_isolates_failure
    [.ok (some (.arr [.null])), .exn "boom", .ok none] 2 [2, 0, 1] 1 "boom"
    (by decide) rfl).1

theorem dictGet_of_lookup (fields : List (String × Json)) (key : String)
    (dflt v : Json) (h : fields.lookup key = some v) :
    dictGet fields key dflt = v := by
  unfold dictGet
  rw [h]

theorem dictGet_of_absent (fields : List (String × Json)) (key : String)
    (dflt : Json) (h : fields.lookup key = none) :
    dictGet fields key dflt = dflt := by
  unfold dictGet
  rw [h]

/-- Claim C3: for every response body, `request_data` returns `None` when
the body's `results` field is absent, empty, or not a sequence, when the
first element of `results` is not a mapping, or when that element's
`TSGeolinks` field is absent (missing or `null`) or empty; otherwise it
returns the `TSGeolinks` sequence of the FIRST element of `results`
verbatim, and elements of `results` after the first never influence the
returned value. -/
theorem request_data_body_characterization :
    (∀ body : Json,
      (resultsField body = none ∨ resultsField body = some (.arr []) ∨
        ∃ j, resultsField body = some j ∧ j.isList = false) →
      request_data_body body = none) ∧
    (∀ (fields : List (String × Json)) (first : Json) (rest : List Json),
      fields.lookup "results" = some (.arr (first :: rest)) →
      (∀ g, first ≠ Json.obj g) →
      request_data_body (.obj fields) = none) ∧
    (∀ (fields f : List (String × Json)) (rest : List Json),
      fields.lookup "results" = some (.arr (.obj f :: rest)) →
      (f.lookup "TSGeolinks" = none ∨ f.lookup "TSGeolinks" = some .null ∨
        f.lookup "TSGeolinks" = some (.arr [])) →
      request_data_body (.obj fields) = none) ∧
    (∀ (fields f : List (String × Json)) (rest : List Json)
      (x : Json) (l : List Json),
      fields.lookup "results" = some (.arr (.obj f :: rest)) →
      f.lookup "TSGeolinks" = some (.arr (x :: l)) →
      request_data_body (.obj fields) = some (.arr (x :: l))) ∧
    (∀ (fields fields' : List (String × Json)) (first : Json)
      (rest rest' : List Json),
      fields.lookup "results" = some (.arr (first :: rest)) →
      fields'.lookup "results" = some (.arr (first :: rest')) →
      request_data_body (.obj fields) = request_data_body (.obj fields')) := by
  refine ⟨?_, ?_, ?_, ?_, ?_⟩
  · intro body h
    cases body with
    | obj fields =>
        rcases h with h | h | ⟨j, hj, hlist⟩
        · simp only [resultsField] at h
          simp [request_data_body, dictGet, h, Json.truthy, Json.isList]
        · simp only [resultsField] at h
          simp [request_data_body, dictGet, h, Json.truthy, Json.isList]
        · simp only [resultsField] at hj
          simp [request_data_body, dictGet, hj, hlist]
    | null => rfl
    | bool b => rfl
    | num n => rfl
    | str s => rfl
    | arr l => rfl
  · intro fields first rest hlook hnotobj
    cases first with
    | obj g => exact absurd rfl (hnotobj g)
    | null => simp [request_data_body, dictGet, hlook, Json.truthy, Json.isList]
    | bool b => simp [request_data_body, dictGet, hlook, Json.truthy, Json.isList]
    | num n => simp [request_data_body, dictGet, hlook, Json.truthy, Json.isList]
    | str s => simp [request_data_body, dictGet, hlook, Json.truthy, Json.isList]
    | arr l => simp [request_data_body, dictGet, hlook, Json.truthy, Json.isList]
  · intro fields f rest hlook hts
    rcases hts with h | h | h <;>
      simp [request_data_body, dictGet, hlook, h, Json.truthy, Json.isList]
  · intro fields f rest x l hlook hts
    simp [request_data_body, dictGet, hlook, hts, Json.truthy, Json.isList]
  · intro fields fields' first rest rest' hlook hlook'
    simp only [request_data_body, dictGet, hlook, hlook', Json.truthy,
      Json.isList, List.isEmpty_cons, Bool.not_false, Bool.not_true,
      Bool.false_or, Bool.or_false, if_false, ite_false, Bool.false_eq_true]

theorem request_data_body_characterization_witness :
    request_data_body (.obj [("results", .str "x")]) = none ∧
    request_data_body
      (.obj [("results", .arr [.obj [("TSGeolinks",
        .arr [.obj [("country", .str "Brazil")]])], .str "ignored"])]) =
      some (.arr [.obj [("country", .str "Brazil")]]) :=
  ⟨request_data_body_characterization.1 (.obj [("results", .str "x")])
      (Or.inr (Or.inr ⟨.str "x", rfl, rfl⟩)),
    request_data_body_characterization.2.2.2.1
      [("results", .arr [.obj [("TSGeolinks",
        .arr [.obj [("country", .str "Brazil")]])], .str "ignored"])]
      [("TSGeolinks", .arr [.obj [("country", .str "Brazil")]])]
      [.str "ignored"] (.obj [("country", .str "Brazil")]) [] rfl rfl⟩

/-- Claim C4: `request_data` never raises (it is total here because every
Python exception path ends in one of the three `except` clauses): on every
transport fault — non-success HTTP status, timeout, connection or DNS
failure, or a malformed body — it returns `None`, and its only other
observable effect is a single diagnostic line containing the query's
`genus species` pair. -/
theorem request_data_absorbs_faults (genus species : String)
    (o : HttpOutcome) (h : o.isFault = true) :
    (request_data genus species o).1 = none ∧
    ∃ pre post, (request_data genus species o).2 =
      [pre ++ genus ++ " " ++ species ++ post] := by
  cases o with
  | netError msg =>
      refine ⟨rfl, "Request error for ", ": " ++ msg, ?_⟩
      simp [request_data, String.append_assoc]
  | response status body =>
      by_cases h4 : 400 ≤ status
      · refine ⟨?_, "Request error for ", ": HTTP " ++ toString status, ?_⟩ <;>
          simp [request_data, h4, String.append_assoc]
      · cases body with
        | error msg =>
            refine ⟨?_, "Data parsing error for ", ": " ++ msg, ?_⟩ <;>
              simp [request_data, h4, String.append_assoc]
        | ok j =>
            exfalso
            simp [HttpOutcome.isFault, h4] at h

theorem request_data_absorbs_faults_witness :
    (request_data "Abarema" "cochliocarpos" (.netError "timeout")).1 = none ∧
    ∃ pre post, (request_data "Abarema" "cochliocarpos" (.netError "timeout")).2 =
      [pre ++ "Abarema" ++ " " ++ "cochliocarpos" ++ post] :=
  request_data_absorbs_faults "Abarema" "cochliocarpos" (.netError "timeout") rfl

/-- Claim C8: `species_exists` never raises (its single `try` block's
`except Exception` makes the embedding total): on every outcome in which
the underlying request raises — network failure, non-success status,
malformed body, or a body on which the field access raises — it returns
`False`; when no exception occurs (success status, decoded mapping body,
whose `results` field is the sequence the API contract gives it, or is
absent) it returns `True` exactly when that `results` sequence is
non-empty. -/
theorem species_exists_total_spec :
    (∀ o : HttpOutcome, o.isFault = true → species_exists o = false) ∧
    (∀ (status : Nat) (j : Json), status < 400 →
      (∀ fields, j ≠ Json.obj fields) →
      species_exists (.response status (.ok j)) = false) ∧
    (∀ (status : Nat) (fields : List (String × Json)) (l : List Json),
      status < 400 →
      dictGet fields "results" (.arr []) = .arr l →
      (species_exists (.response status (.ok (.obj fields))) = true ↔
        l ≠ [])) := by
  refine ⟨?_, ?_, ?_⟩
  · intro o h
    cases o with
    | netError msg => rfl
    | response status body =>
        simp only [HttpOutcome.isFault, Bool.or_eq_true, decide_eq_true_eq] at h
        rcases h with h4 | hb
        · simp [species_exists, h4]
        · cases body with
          | error msg => simp [species_exists]
          | ok j => simp at hb
  · intro status j hst hnotobj
    have h4 : ¬ 400 ≤ status := by omega
    cases j with
    | obj fields => exact absurd rfl (hnotobj fields)
    | null => simp [species_exists, h4, species_exists_body]
    | bool b => simp [species_exists, h4, species_exists_body]
    | num n => simp [species_exists, h4, species_exists_body]
    | str s => simp [species_exists, h4, species_exists_body]
    | arr l => simp [species_exists, h4, species_exists_body]
  · intro status fields l hst hres
    have h4 : ¬ 400 ≤ status := by omega
    simp [species_exists, h4, species_exists_body, hres, Json.truthy,
      Json.isList, Json.listLen, List.isEmpty_iff, Nat.pos_iff_ne_zero,
      List.length_eq_zero]

theorem species_exists_total_spec_witness :
    species_exists (.netError "timeout") = false ∧
    (species_exists (.response 200
      (.ok (.obj [("results", .arr [.obj []])]))) = true ↔
      ([Json.obj []] : List Json) ≠ []) :=
  ⟨species_exists_total_spec.1 (.netError "timeout") rfl,
    species_exists_total_spec.2.2 200 [("results", .arr [.obj []])]
      [.obj []] (by decide) rfl⟩

/-- Claim C10: `species_exists` returns `True` only when the decoded body
is a mapping whose `results` value is a non-empty list; when `results` is
truthy but not a list, `species_exists` returns `False`, and `request_data`
on the same body also treats it as absent and returns `None`. -/
theorem species_exists_requires_list :
    (∀ o : HttpOutcome, species_exists o = true →
      ∃ (status : Nat) (fields : List (String × Json)) (l : List Json),
        o = .response status (.ok (.obj fields)) ∧
        dictGet fields "results" (.arr []) = .arr l ∧ l ≠ []) ∧
    (∀ (fields : List (String × Json)) (r : Json),
      dictGet fields "results" (.arr []) = r → r.truthy = true →
      r.isList = false →
      species_exists_body (.obj fields) = false ∧
      request_data_body (.obj fields) = none) := by
  constructor
  · intro o h
    cases o with
    | netError msg => simp [species_exists] at h
    | response status body =>
        by_cases h4 : 400 ≤ status
        · simp [species_exists, h4] at h
        · cases body with
          | error msg => simp [species_exists, h4] at h
          | ok j =>
              simp only [species_exists, if_neg h4] at h
              cases j with
              | obj fields =>
                  refine ⟨status, fields, ?_⟩
                  simp only [species_exists_body, Bool.and_eq_true,
                    decide_eq_true_eq] at h
                  obtain ⟨⟨htr, hlist⟩, hlen⟩ := h
                  cases hres : dictGet fields "results" (.arr []) with
                  | arr l =>
                      refine ⟨l, rfl, rfl, ?_⟩
                      rw [hres] at hlen
                      simp only [Json.listLen] at hlen
                      intro hnil
                      rw [hnil] at hlen
                      simp at hlen
                  | null => rw [hres] at hlist; simp [Json.isList] at hlist
                  | bool b => rw [hres] at hlist; simp [Json.isList] at hlist
                  | num n => rw [hres] at hlist; simp [Json.isList] at hlist
                  | str s => rw [hres] at hlist; simp [Json.isList] at hlist
                  | obj m => rw [hres] at hlist; simp [Json.isList] at hlist
              | null => simp [species_exists_body] at h
              | bool b => simp [species_exists_body] at h
              | num n => simp [species_exists_body] at h
              | str s => simp [species_exists_body] at h
              | arr l => simp [species_exists_body] at h
  · intro fields r hres htr hlist
    constructor
    · simp [species_exists_body, hres, hlist]
    · simp [request_data_body, hres, hlist]

theorem species_exists_requires_list_witness :
    species_exists_body (.obj [("results", .obj [("a", .null)])]) = false ∧
    request_data_body (.obj [("results", .obj [("a", .null)])]) = none :=
  species_exists_requires_list.2 [("results", .obj [("a", .null)])]
    (.obj [("a", .null)]) rfl rfl rfl

theorem extract_locations_skip (co pr : Option String)
    (rest : List LocationRecord) (h : strTruthy co = false) :
    extract_locations (⟨co, pr⟩ :: rest) = extract_locations rest := by
  cases co with
  | none => simp [extract_locations]
  | some c =>
      simp only [strTruthy, bne_eq_false_iff_eq] at h
      subst h
      simp [extract_locations]

theorem extract_locations_insert (c : String) (pr : Option String)
    (rest : List LocationRecord) (hc : c ≠ "") (hpr : strTruthy pr = false) :
    extract_locations (⟨some c, pr⟩ :: rest) =
      (insert c (extract_locations rest).1, (extract_locations rest).2) := by
  cases pr with
  | none => simp [extract_locations, hc]
  | some p =>
      simp only [strTruthy, bne_eq_false_iff_eq] at hpr
      subst hpr
      simp [extract_locations, hc]

theorem extract_locations_pair (c p : String) (rest : List LocationRecord)
    (hc : c ≠ "") (hp : p ≠ "") :
    extract_locations (⟨some c, some p⟩ :: rest) =
      ((extract_locations rest).1, (c, p) :: (extract_locations rest).2) := by
  simp [extract_locations, hc, hp]

/-- Claim C6: `extract_locations` skips every record whose country is
absent or empty; a record with a truthy country and falsy province adds the
country to the `countries_only` set (duplicates collapse in the set); a
record with a truthy country and truthy province contributes its
`(country, province)` pair to the pair list, in input order, duplicates
kept; the empty input yields `(∅, [])`; and the Brazil/France example from
the docstring evaluates to `({"France"}, [("Brazil","Bahia"),
("Brazil","Ceará")])`. -/
theorem extract_locations_classification :
    (∀ (co pr : Option String) (rest : List LocationRecord),
      strTruthy co = false →
      extract_locations (⟨co, pr⟩ :: rest) = extract_locations rest) ∧
    (∀ (c : String) (pr : Option String) (rest : List LocationRecord),
      c ≠ "" → strTruthy pr = false →
      extract_locations (⟨some c, pr⟩ :: rest) =
        (insert c (extract_locations rest).1, (extract_locations rest).2)) ∧
    (∀ (c p : String) (rest : List LocationRecord),
      c ≠ "" → p ≠ "" →
      extract_locations (⟨some c, some p⟩ :: rest) =
        ((extract_locations rest).1, (c, p) :: (extract_locations rest).2)) ∧
    extract_locations [] = (∅, []) ∧
    extract_locations
      [⟨some "Brazil", some "Bahia"⟩, ⟨some "Brazil", some "Ceará"⟩,
        ⟨some "France", none⟩] =
      ({"France"}, [("Brazil", "Bahia"), ("Brazil", "Ceará")]) :=
  ⟨extract_locations_skip, extract_locations_insert, extract_locations_pair,
    rfl, by decide⟩

theorem extract_locations_classification_witness :
    extract_locations [⟨some "Brazil", some "Bahia"⟩] =
      ((extract_locations []).1,
        ("Brazil", "Bahia") :: (extract_locations []).2) :=
  extract_locations_classification.2.2.1 "Brazil" "Bahia" []
    (by decide) (by decide)

/-- Claim C7 counterexample: it is not true that a country in the
`countries_only` output has no input record carrying a province.  With
records `[{country: Brazil, province: Bahia}, {country: Brazil}]` the
country `Brazil` is in `countries_only` (the second record puts it there)
while the first record for `Brazil` carries the province `Bahia`. -/
theorem extract_locations_countriesOnly_purity_counterexample :
    ¬ (∀ (recs : List LocationRecord) (c : String),
        c ∈ (extract_locations recs).1 →
        ∀ r ∈ recs, r.country = some c → strTruthy r.province = false) := by
  intro h
  have hmem : "Brazil" ∈ (extract_locations
      [⟨some "Brazil", some "Bahia"⟩, ⟨some "Brazil", none⟩]).1 := by decide
  have hfalse := h _ "Brazil" hmem ⟨some "Brazil", some "Bahia"⟩
    (List.mem_cons_self _ _) rfl
  simp [strTruthy] at hfalse

/-- Claim C7 (amended): every country appearing in the classifier's
`countries_only` output comes from at least one input record that carries
that (non-empty) country with an absent or empty province. -/
theorem extract_locations_countriesOnly_source (recs : List LocationRecord)
    (c : String) (h : c ∈ (extract_locations recs).1) :
    ∃ r ∈ recs, r.country = some c ∧ c ≠ "" ∧ strTruthy r.province = false := by
  induction recs with
  | nil => simp [extract_locations] at h
  | cons entry rest ih =>
      obtain ⟨co, pr⟩ := entry
      by_cases hsk : strTruthy co = false
      · rw [extract_locations_skip co pr rest hsk] at h
        obtain ⟨r, hr, hrest⟩ := ih h
        exact ⟨r, List.mem_cons_of_mem _ hr, hrest⟩
      · obtain ⟨c', hco⟩ : ∃ c', co = some c' := by
          cases co with
          | none => exact absurd rfl hsk
          | some c' => exact ⟨c', rfl⟩
        subst hco
        have hc' : c' ≠ "" := by
          simpa [strTruthy] using hsk
        by_cases hpr : strTruthy pr = false
        · rw [extract_locations_insert c' pr rest hc' hpr] at h
          rcases Finset.mem_insert.mp h with hcc | hmem
          · subst hcc
            exact ⟨⟨some c, pr⟩, List.mem_cons_self _ _, rfl, hc', hpr⟩
          · obtain ⟨r, hr, hrest⟩ := ih hmem
            exact ⟨r, List.mem_cons_of_mem _ hr, hrest⟩
        · obtain ⟨p, hp⟩ : ∃ p, pr = some p := by
            cases pr with
            | none => exact absurd rfl hpr
            | some p => exact ⟨p, rfl⟩
          subst hp
          have hpne : p ≠ "" := by
            simpa [strTruthy] using hpr
          rw [extract_locations_pair c' p rest hc' hpne] at h
          obtain ⟨r, hr, hrest⟩ := ih h
          exact ⟨r, List.mem_cons_of_mem _ hr, hrest⟩

theorem extract_locations_countriesOnly_source_witness :
    ∃ r ∈ ([⟨some "Brazil", some "Bahia"⟩, ⟨some "Brazil", none⟩] :
        List LocationRecord),
      r.country = some "Brazil" ∧ "Brazil" ≠ "" ∧ strTruthy r.province = false :=
  extract_locations_countriesOnly_source
    [⟨some "Brazil", some "Bahia"⟩, ⟨some "Brazil", none⟩] "Brazil" (by decide)

theorem pySplit_ne_nil : ∀ t : List Char, pySplit t ≠ [] := by
  intro t
  cases t with
  | nil => simp [pySplit]
  | cons c cs =>
      unfold pySplit
      by_cases h : c = ' '
      · simp [h]
      · simp only [if_neg h]
        cases pySplit cs with
        | nil => simp
        | cons hd tl => simp

theorem mem_pySplit_of_mem : ∀ (t : List Char) (c : Char), c ∈ t →
    c = ' ' ∨ ∃ f ∈ pySplit t, c ∈ f := by
  intro t
  induction t with
  | nil => intro c hc; cases hc
  | cons a cs ih =>
      intro c hc
      by_cases ha : a = ' '
      · rcases List.mem_cons.mp hc with rfl | hmem
        · exact Or.inl ha
        · rcases ih c hmem with h | ⟨f, hf, hcf⟩
          · exact Or.inl h
          · refine Or.inr ⟨f, ?_, hcf⟩
            unfold pySplit
            rw [if_pos ha]
            exact List.mem_cons_of_mem _ hf
      · obtain ⟨t0, ts, hsplit⟩ : ∃ t0 ts, pySplit cs = t0 :: ts := by
          cases hs : pySplit cs with
          | nil => exact absurd hs (pySplit_ne_nil cs)
          | cons t0 ts => exact ⟨t0, ts, rfl⟩
        have hval : pySplit (a :: cs) = (a :: t0) :: ts := by
          unfold pySplit
          rw [if_neg ha, hsplit]
        rcases List.mem_cons.mp hc with rfl | hmem
        · refine Or.inr ⟨c :: t0, ?_, List.mem_cons_self _ _⟩
          rw [hval]
          exact List.mem_cons_self _ _
        · rcases ih c hmem with h | ⟨f, hf, hcf⟩
          · exact Or.inl h
          · rw [hsplit] at hf
            rcases List.mem_cons.mp hf with rfl | hf'
            · refine Or.inr ⟨a :: f, ?_, List.mem_cons_of_mem _ hcf⟩
              rw [hval]
              exact List.mem_cons_self _ _
            · refine Or.inr ⟨f, ?_, hcf⟩
              rw [hval]
              exact List.mem_cons_of_mem _ hf'

theorem wsSplit_eq_pySplit : ∀ t : List Char,
    (∀ c ∈ t, c.isWhitespace = true → c = ' ') → wsSplit t = pySplit t := by
  intro t
  induction t with
  | nil => intro _; rfl
  | cons a cs ih =>
      intro h
      have hcs : ∀ c ∈ cs, c.isWhitespace = true → c = ' ' :=
        fun c hc => h c (List.mem_cons_of_mem _ hc)
      by_cases ha : a = ' '
      · subst ha
        unfold wsSplit pySplit
        rw [if_pos (by decide), if_pos rfl, ih hcs]
      · have haw : ¬ a.isWhitespace = true := by
          intro hw
          exact ha (h a (List.mem_cons_self _ _) hw)
        unfold wsSplit pySplit
        rw [if_neg haw, if_neg ha, ih hcs]

theorem wsTokens_eq_pySplit (t : List Char)
    (h : ∀ f ∈ pySplit t, f ≠ [] ∧ ∀ c ∈ f, c.isWhitespace = false) :
    wsTokens t = pySplit t := by
  have hch : ∀ c ∈ t, c.isWhitespace = true → c = ' ' := by
    intro c hc hw
    rcases mem_pySplit_of_mem t c hc with h' | ⟨f, hf, hcf⟩
    · exact h'
    · have hfc := (h f hf).2 c hcf
      rw [hw] at hfc
      cases hfc
  unfold wsTokens
  rw [wsSplit_eq_pySplit t hch]
  apply List.filter_eq_self.mpr
  intro f hf
  have hne := (h f hf).1
  simpa using hne

/-- Claim C9 counterexample: `load_species_data` does not give the first
and second whitespace-separated tokens for every row.  For the `TaxonName`
value `"Abies  alba"` (two spaces) the code's `Species` column is the empty
string — the field between the two spaces produced by `split(" ")` — while
the second whitespace-separated token is `"alba"`. -/
theorem load_species_data_whitespace_counterexample :
    ¬ (∀ (names : List (List Char)) (i : Nat) (row : SpeciesRow),
        (load_species_data names)[i]? = some row →
        row.genus = (wsTokens row.taxonName)[0]? ∧
        row.species = (wsTokens row.taxonName)[1]?) := by
  intro h
  have hrow := (h [("Abies  alba").toList] 0
    (load_species_row ("Abies  alba").toList) rfl).2
  have hne : (load_species_row ("Abies  alba").toList).species ≠
      (wsTokens (load_species_row ("Abies  alba").toList).taxonName)[1]? := by
    decide
  exact hne hrow

/-- Claim C9 (amended): each row of `load_species_data` — malformed
`TaxonName` values included — has `Genus`/`Species` equal to the first and
second fields of splitting the row's `TaxonName` on every single space
character (empty fields kept); when the `TaxonName` has no empty field and
no whitespace inside a field — tokens separated by exactly one space —
these are in particular the first and second whitespace-separated
tokens. -/
theorem load_species_data_tokens (names : List (List Char)) (i : Nat)
    (row : SpeciesRow) (hrow : (load_species_data names)[i]? = some row) :
    row.genus = (pySplit row.taxonName)[0]? ∧
    row.species = (pySplit row.taxonName)[1]? ∧
    ((∀ f ∈ pySplit row.taxonName,
        f ≠ [] ∧ ∀ c ∈ f, c.isWhitespace = false) →
      row.genus = (wsTokens row.taxonName)[0]? ∧
      row.species = (wsTokens row.taxonName)[1]?) := by
  rw [load_species_data, List.getElem?_map] at hrow
  cases hn : names[i]? with
  | none => rw [hn] at hrow; cases hrow
  | some t =>
      rw [hn] at hrow
      injection hrow with hrow
      subst hrow
      refine ⟨rfl, rfl, ?_⟩
      intro h
      have hw : wsTokens (load_species_row t).taxonName =
          pySplit (load_species_row t).taxonName := wsTokens_eq_pySplit t h
      rw [hw]
      exact ⟨rfl, rfl⟩

theorem load_species_data_tokens_witness :
    (load_species_row ("Abies  alba").toList).species =
      (pySplit (load_species_row ("Abies  alba").toList).taxonName)[1]? ∧
    ((load_species_row ("Abies alba").toList).genus =
      (wsTokens (load_species_row ("Abies alba").toList).taxonName)[0]? ∧
    (load_species_row ("Abies alba").toList).species =
      (wsTokens (load_species_row ("Abies alba").toList).taxonName)[1]?) :=
  ⟨(load_species_data_tokens [("Abies  alba").toList] 0
      (load_species_row ("Abies  alba").toList) rfl).2.1,
    (load_species_data_tokens [("Abies alba").toList] 0
      (load_species_row ("Abies alba").toList) rfl).2.2 (by decide)⟩
